import Mathlib

/-!
Shallow embedding of the Mars rover mission-control dashboard client
(`src/frontend/src/App.js` and the revision in `src/unnamed/part_001`).

Conventions of the embedding:
* JavaScript numbers are modelled by `ℚ` (the code only performs field
  arithmetic, `Math.min`/`Math.max`, `Math.floor` on them); timestamps by `ℤ`
  (milliseconds).
* A JavaScript division whose result is non-finite (`NaN` / `±Infinity`,
  arising exactly when the denominator is `0`) is modelled by `Option ℚ`
  via `jdiv`, with `none` standing for the non-finite result.
* The cache-key strings `rover-data-${sol || 'latest'}` and the endpoint
  strings `/rover-data` / `/rover-data/${sol}` are modelled injectively by
  `Option ℤ`, `none` standing for the `latest` form; `0` is falsy in
  JavaScript, so sol `0` also maps to the `latest` form.
* `Math.sin` (transcendental, not representable in `ℚ`) and `Math.random`
  (nondeterministic) are passed to `generateTelemetryData` as explicit
  oracle parameters: a function for `sin` and a stream of draws for the
  successive `Math.random()` calls.
-/

namespace MarsRover

/-- JavaScript division: `none` models the non-finite result (`NaN` or
`±Infinity`) produced when the denominator is zero. -/
def jdiv (a b : ℚ) : Option ℚ :=
  if b = 0 then none else some (a / b)

/-- A point of the rover route (`{sol, lat, lon}` in the payload,
spec §3 RoutePoint). -/
structure RoutePoint where
  sol : ℤ
  lat : ℚ
  lon : ℚ
deriving DecidableEq

/-- `Math.min(...xs)` over the non-empty list `x :: xs`. -/
def listMin (x : ℚ) (xs : List ℚ) : ℚ := xs.foldl min x

/-- `Math.max(...xs)` over the non-empty list `x :: xs`. -/
def listMax (x : ℚ) (xs : List ℚ) : ℚ := xs.foldl max x

/-- Bounding box of the route used by the map projector. -/
structure Bounds where
  minLat : ℚ
  maxLat : ℚ
  minLon : ℚ
  maxLon : ℚ
deriving DecidableEq

/-- `routeBounds` memo of `NASAMarsMap` (App.js lines 40-51): `null` for an
empty route, otherwise min/max of the latitudes and longitudes padded by
`0.002 = 1/500` on each side. -/
def routeBounds : List RoutePoint → Option Bounds
  | [] => none
  | p :: ps =>
      some
        { minLat := listMin p.lat (ps.map (·.lat)) - 1 / 500
          maxLat := listMax p.lat (ps.map (·.lat)) + 1 / 500
          minLon := listMin p.lon (ps.map (·.lon)) - 1 / 500
          maxLon := listMax p.lon (ps.map (·.lon)) + 1 / 500 }

/-- `Math.max(0, Math.min(100, q))`. -/
def clamp100 (q : ℚ) : ℚ := max 0 (min 100 q)

/-- `coordToPercent` of `NASAMarsMap` (App.js lines 54-64): `(50, 50)` when
`routeBounds` is `null`, otherwise the linear projection of `(lat, lon)`
into percentage space, each coordinate clamped to `[0, 100]`.  The result is
`none` exactly when a JavaScript division by zero (hence a non-finite
coordinate) would occur. -/
def coordToPercent (route : List RoutePoint) (lat lon : ℚ) : Option (ℚ × ℚ) :=
  match routeBounds route with
  | none => some (50, 50)
  | some b =>
      match jdiv (lon - b.minLon) (b.maxLon - b.minLon),
            jdiv (b.maxLat - lat) (b.maxLat - b.minLat) with
      | some x, some y => some (clamp100 (x * 100), clamp100 (y * 100))
      | _, _ => none

theorem listMin_le (x : ℚ) (xs : List ℚ) : listMin x xs ≤ x := by
  induction xs generalizing x with
  | nil => exact le_refl x
  | cons y ys ih =>
      calc listMin x (y :: ys) = listMin (min x y) ys := rfl
        _ ≤ min x y := ih (min x y)
        _ ≤ x := min_le_left x y

theorem le_listMax (x : ℚ) (xs : List ℚ) : x ≤ listMax x xs := by
  induction xs generalizing x with
  | nil => exact le_refl x
  | cons y ys ih =>
      calc x ≤ max x y := le_max_left x y
        _ ≤ listMax (max x y) ys := ih (max x y)
        _ = listMax x (y :: ys) := rfl

theorem listMin_le_listMax (x : ℚ) (xs : List ℚ) : listMin x xs ≤ listMax x xs :=
  le_trans (listMin_le x xs) (le_listMax x xs)

theorem clamp100_nonneg (q : ℚ) : 0 ≤ clamp100 q := le_max_left 0 _

theorem clamp100_le (q : ℚ) : clamp100 q ≤ 100 := by
  unfold clamp100
  rcases max_cases (0 : ℚ) (min 100 q) with h | h
  · rw [h.1]; norm_num
  · rw [h.1]; exact min_le_left 100 q

/-- Denominators of the projection are strictly positive for a non-empty
route: the `1/500` padding on both ends keeps `max - min` at least `1/250`. -/
theorem routeBounds_den_pos (p : RoutePoint) (ps : List RoutePoint) (b : Bounds)
    (hb : routeBounds (p :: ps) = some b) :
    0 < b.maxLon - b.minLon ∧ 0 < b.maxLat - b.minLat := by
  have hb2 : b =
      { minLat := listMin p.lat (ps.map (·.lat)) - 1 / 500
        maxLat := listMax p.lat (ps.map (·.lat)) + 1 / 500
        minLon := listMin p.lon (ps.map (·.lon)) - 1 / 500
        maxLon := listMax p.lon (ps.map (·.lon)) + 1 / 500 } := by
    have := hb.symm
    simpa [routeBounds] using this
  subst hb2
  constructor
  · have h := listMin_le_listMax p.lon (ps.map (·.lon))
    simp only
    linarith
  · have h := listMin_le_listMax p.lat (ps.map (·.lat))
    simp only
    linarith

/-- Projection succeeds (is finite) with both clamped coordinates for any
non-empty route. -/
theorem coordToPercent_nonempty (p : RoutePoint) (ps : List RoutePoint) (lat lon : ℚ) :
    ∃ x y, coordToPercent (p :: ps) lat lon = some (x, y) ∧
      0 ≤ x ∧ x ≤ 100 ∧ 0 ≤ y ∧ y ≤ 100 := by
  obtain ⟨b, hb⟩ : ∃ b, routeBounds (p :: ps) = some b := ⟨_, rfl⟩
  obtain ⟨hlon, hlat⟩ := routeBounds_den_pos p ps b hb
  refine ⟨clamp100 ((lon - b.minLon) / (b.maxLon - b.minLon) * 100),
          clamp100 ((b.maxLat - lat) / (b.maxLat - b.minLat) * 100), ?_, ?_, ?_, ?_, ?_⟩
  · rw [coordToPercent, hb]
    simp only [jdiv, if_neg (ne_of_gt hlon), if_neg (ne_of_gt hlat)]
  · exact clamp100_nonneg _
  · exact clamp100_le _
  · exact clamp100_nonneg _
  · exact clamp100_le _

/- ------------------------------------------------------------------ -/
/- Degenerate routes (claim C7). -/

/-- Helper: folding `min` over a list of copies of `c`, starting from `c`,
stays at `c`. -/
theorem listMin_const (c : ℚ) (xs : List ℚ) (h : ∀ y ∈ xs, y = c) :
    listMin c xs = c := by
  induction xs with
  | nil => rfl
  | cons y ys ih =>
      have hy : y = c := h y (List.mem_cons_self y ys)
      have hys : ∀ z ∈ ys, z = c := fun z hz => h z (List.mem_cons_of_mem y hz)
      calc listMin c (y :: ys) = listMin (min c y) ys := rfl
        _ = listMin c ys := by rw [hy, min_self]
        _ = c := ih hys

/-- Helper: folding `max` over a list of copies of `c`, starting from `c`,
stays at `c`. -/
theorem listMax_const (c : ℚ) (xs : List ℚ) (h : ∀ y ∈ xs, y = c) :
    listMax c xs = c := by
  induction xs with
  | nil => rfl
  | cons y ys ih =>
      have hy : y = c := h y (List.mem_cons_self y ys)
      have hys : ∀ z ∈ ys, z = c := fun z hz => h z (List.mem_cons_of_mem y hz)
      calc listMax c (y :: ys) = listMax (max c y) ys := rfl
        _ = listMax c ys := by rw [hy, max_self]
        _ = c := ih hys

/-- A two-point route whose longitudes coincide (`min == max` on the
longitude axis) but whose latitudes differ. -/
def degRoute : List RoutePoint := [⟨0, 0, 5⟩, ⟨1, 1, 5⟩]

/-- Closed form of the projector on a non-empty route: both divisions are
finite thanks to the padded bounds. -/
theorem coordToPercent_cons (q : RoutePoint) (ps : List RoutePoint) (lat lon : ℚ) :
    coordToPercent (q :: ps) lat lon =
      some (clamp100 ((lon - (listMin q.lon (ps.map (·.lon)) - 1 / 500)) /
              ((listMax q.lon (ps.map (·.lon)) + 1 / 500) -
                (listMin q.lon (ps.map (·.lon)) - 1 / 500)) * 100),
            clamp100 (((listMax q.lat (ps.map (·.lat)) + 1 / 500) - lat) /
              ((listMax q.lat (ps.map (·.lat)) + 1 / 500) -
                (listMin q.lat (ps.map (·.lat)) - 1 / 500)) * 100)) := by
  obtain ⟨hlon, hlat⟩ := routeBounds_den_pos q ps _ rfl
  rw [coordToPercent]
  simp only [routeBounds, jdiv] at hlon hlat ⊢
  rw [if_neg (ne_of_gt hlon), if_neg (ne_of_gt hlat)]

/-- When every longitude of the route equals `c`, every route point projects
to exactly `50` on the x axis. -/
theorem coordToPercent_const_lon (q : RoutePoint) (ps : List RoutePoint)
    (p : RoutePoint) (c : ℚ) (hmem : p ∈ q :: ps) (hall : ∀ r ∈ q :: ps, r.lon = c) :
    ∃ y, coordToPercent (q :: ps) p.lat p.lon = some (50, y) := by
  have hq : q.lon = c := hall q (List.mem_cons_self q ps)
  have hps : ∀ y ∈ ps.map (·.lon), y = c := by
    intro y hy
    obtain ⟨r, hr, rfl⟩ := List.mem_map.1 hy
    exact hall r (List.mem_cons_of_mem q hr)
  have hmin : listMin q.lon (ps.map (·.lon)) = c := by
    rw [hq]; exact listMin_const c _ hps
  have hmax : listMax q.lon (ps.map (·.lon)) = c := by
    rw [hq]; exact listMax_const c _ hps
  have hp : p.lon = c := hall p hmem
  have h := coordToPercent_cons q ps p.lat p.lon
  rw [hmin, hmax] at h
  have hx : (p.lon - (c - 1 / 500)) / ((c + 1 / 500) - (c - 1 / 500)) * 100 = (50 : ℚ) := by
    rw [hp]; norm_num
  have h50 : clamp100 (50 : ℚ) = 50 := by norm_num [clamp100]
  rw [hx, h50] at h
  exact ⟨_, h⟩

/-- When every latitude of the route equals `c`, every route point projects
to exactly `50` on the y axis. -/
theorem coordToPercent_const_lat (q : RoutePoint) (ps : List RoutePoint)
    (p : RoutePoint) (c : ℚ) (hmem : p ∈ q :: ps) (hall : ∀ r ∈ q :: ps, r.lat = c) :
    ∃ x, coordToPercent (q :: ps) p.lat p.lon = some (x, 50) := by
  have hq : q.lat = c := hall q (List.mem_cons_self q ps)
  have hps : ∀ y ∈ ps.map (·.lat), y = c := by
    intro y hy
    obtain ⟨r, hr, rfl⟩ := List.mem_map.1 hy
    exact hall r (List.mem_cons_of_mem q hr)
  have hmin : listMin q.lat (ps.map (·.lat)) = c := by
    rw [hq]; exact listMin_const c _ hps
  have hmax : listMax q.lat (ps.map (·.lat)) = c := by
    rw [hq]; exact listMax_const c _ hps
  have hp : p.lat = c := hall p hmem
  have h := coordToPercent_cons q ps p.lat p.lon
  rw [hmin, hmax] at h
  have hy : ((c + 1 / 500) - p.lat) / ((c + 1 / 500) - (c - 1 / 500)) * 100 = (50 : ℚ) := by
    rw [hp]; norm_num
  have h50 : clamp100 (50 : ℚ) = 50 := by norm_num [clamp100]
  rw [hy, h50] at h
  exact ⟨_, h⟩

/-- C1: for every non-empty route the projected coordinates are finite and
lie in `[0, 100]`; for an empty route the projector returns exactly
`(50, 50)` whatever the input coordinates are. -/
theorem projector_range (route : List RoutePoint) (lat lon : ℚ) (hne : route ≠ []) :
    (∃ x y, coordToPercent route lat lon = some (x, y) ∧
      0 ≤ x ∧ x ≤ 100 ∧ 0 ≤ y ∧ y ≤ 100) ∧
    (∀ la lo : ℚ, coordToPercent [] la lo = some (50, 50)) := by
  constructor
  · cases route with
    | nil => exact absurd rfl hne
    | cons p ps => exact coordToPercent_nonempty p ps lat lon
  · intro la lo
    rfl

/-- Witness for `projector_range` at the one-point route `[(0, 0, 0)]` and
input `(3, 7)`. -/
theorem projector_range_witness :
    (∃ x y, coordToPercent [(⟨0, 0, 0⟩ : RoutePoint)] 3 7 = some (x, y) ∧
      0 ≤ x ∧ x ≤ 100 ∧ 0 ≤ y ∧ y ≤ 100) ∧
    (∀ la lo : ℚ, coordToPercent [] la lo = some (50, 50)) :=
  projector_range [⟨0, 0, 0⟩] 3 7 (by decide)

/-- C7 counterexample: on `degRoute` the longitude bounds coincide
(`min == max` on the longitude axis), yet projecting the route point
`(0, 5)` does not give the center `(50, 50)` — the y coordinate is
`(1.002 / 1.004) * 100 ≈ 99.8`. -/
theorem projector_degenerate_not_center :
    (∀ r ∈ degRoute, r.lon = 5) ∧ coordToPercent degRoute 0 5 ≠ some (50, 50) := by
  constructor
  · decide
  · rw [show degRoute = (⟨0, 0, 5⟩ : RoutePoint) :: [⟨1, 1, 5⟩] from rfl,
        coordToPercent_cons]
    norm_num [listMin, listMax, clamp100, min_def, max_def, Prod.ext_iff]

/-- C7 amended: an empty route projects to exactly `(50, 50)`; a non-empty
route always projects to a finite (never-NaN) pair because the padded bounds
keep both denominators positive; and when `min == max` on the longitude
(resp. latitude) axis, each route point projects to exactly `50` on that
axis — but the other coordinate is unconstrained, so the full result need
not be `(50, 50)`. -/
theorem projector_degenerate_center (route : List RoutePoint) (p : RoutePoint)
    (c d : ℚ) (hmem : p ∈ route) :
    (∀ la lo : ℚ, coordToPercent [] la lo = some (50, 50)) ∧
    (∀ la lo : ℚ, ∃ v, coordToPercent route la lo = some v) ∧
    ((∀ r ∈ route, r.lon = c) → ∃ y, coordToPercent route p.lat p.lon = some (50, y)) ∧
    ((∀ r ∈ route, r.lat = d) → ∃ x, coordToPercent route p.lat p.lon = some (x, 50)) := by
  cases route with
  | nil => exact absurd hmem (List.not_mem_nil p)
  | cons q ps =>
      refine ⟨fun la lo => rfl, ?_, ?_, ?_⟩
      · intro la lo
        obtain ⟨x, y, hxy, _⟩ := coordToPercent_nonempty q ps la lo
        exact ⟨(x, y), hxy⟩
      · intro hall
        exact coordToPercent_const_lon q ps p c hmem hall
      · intro hall
        exact coordToPercent_const_lat q ps p d hmem hall

/-- Witness for `projector_degenerate_center` on a route whose latitudes all
equal `2` and longitudes all equal `5`. -/
theorem projector_degenerate_center_witness :
    (∀ la lo : ℚ, coordToPercent [] la lo = some (50, 50)) ∧
    (∀ la lo : ℚ, ∃ v,
      coordToPercent [(⟨0, 2, 5⟩ : RoutePoint), ⟨1, 2, 5⟩] la lo = some v) ∧
    ((∀ r ∈ [(⟨0, 2, 5⟩ : RoutePoint), ⟨1, 2, 5⟩], r.lon = 5) → ∃ y,
      coordToPercent [(⟨0, 2, 5⟩ : RoutePoint), ⟨1, 2, 5⟩]
        (⟨0, 2, 5⟩ : RoutePoint).lat (⟨0, 2, 5⟩ : RoutePoint).lon = some (50, y)) ∧
    ((∀ r ∈ [(⟨0, 2, 5⟩ : RoutePoint), ⟨1, 2, 5⟩], r.lat = 2) → ∃ x,
      coordToPercent [(⟨0, 2, 5⟩ : RoutePoint), ⟨1, 2, 5⟩]
        (⟨0, 2, 5⟩ : RoutePoint).lat (⟨0, 2, 5⟩ : RoutePoint).lon = some (x, 50)) :=
  projector_degenerate_center [⟨0, 2, 5⟩, ⟨1, 2, 5⟩] ⟨0, 2, 5⟩ 5 2 (by decide)

/- ------------------------------------------------------------------ -/
/- The client telemetry cache `DataCache` (App.js lines 9-30, claim C2). -/

/-- Cache keys.  The source uses the strings `rover-data-${sol || 'latest'}`;
these are in bijection with `Option ℤ` (`none` for the `latest` form, which
is also produced by the falsy sol `0`), which we use directly. -/
abbrev CacheKey := Option ℤ

/-- An entry of `DataCache.cache`: `{data, timestamp: Date.now()}`. -/
structure CacheEntry (α : Type) where
  data : α
  timestamp : ℤ
deriving DecidableEq

/-- The `Map` held in `DataCache.cache`, as a partial function from keys. -/
def Cache (α : Type) := CacheKey → Option (CacheEntry α)

namespace DataCache

/-- `DataCache.UPDATE_INTERVAL`: 5 minutes in milliseconds. -/
def UPDATE_INTERVAL : ℤ := 300000

/-- `DataCache.get(key)`. -/
def get {α : Type} (c : Cache α) (k : CacheKey) : Option (CacheEntry α) := c k

/-- `DataCache.set(key, data)` executed when `Date.now()` is `now`. -/
def set {α : Type} (c : Cache α) (k : CacheKey) (d : α) (now : ℤ) : Cache α :=
  fun k2 => if k2 = k then some ⟨d, now⟩ else c k2

/-- `DataCache.isStale(key)` evaluated when `Date.now()` is `now`: a missing
key is stale, otherwise staleness is `now - timestamp > UPDATE_INTERVAL`. -/
def isStale {α : Type} (c : Cache α) (k : CacheKey) (now : ℤ) : Bool :=
  match c k with
  | none => true
  | some e => decide (now - e.timestamp > UPDATE_INTERVAL)

end DataCache

/-- C2: a missing key is always stale, and after `set(k, d)` at time `t` the
key `k` is stale at time `now` exactly when `now - t` exceeds the 5-minute
window (300000 ms). -/
theorem cache_staleness {α : Type} (c : Cache α) (k : CacheKey) (d : α) (t now : ℤ)
    (hmiss : DataCache.get c k = none) :
    DataCache.isStale c k now = true ∧
    (DataCache.isStale (DataCache.set c k d t) k now = true ↔ 300000 < now - t) := by
  constructor
  · rw [DataCache.isStale, show c k = none from hmiss]
  · rw [DataCache.isStale, DataCache.set]
    simp [DataCache.UPDATE_INTERVAL]

/-- Witness for `cache_staleness` on the empty cache, key `some 1`, data
`42`, stored at `t = 0` and queried at `now = 300001`. -/
theorem cache_staleness_witness :
    DataCache.isStale (fun _ => none : Cache ℕ) (some 1) 300001 = true ∧
    (DataCache.isStale
        (DataCache.set (fun _ => none : Cache ℕ) (some 1) 42 0) (some 1) 300001 = true ↔
      (300000 : ℤ) < 300001 - 0) :=
  cache_staleness (fun _ => none) (some 1) 42 0 300001 rfl

/- ------------------------------------------------------------------ -/
/- Timeline progress percentage (App.js lines 599-600 and the
`EnhancedTimeline` revision, claim C6). -/

/-- JavaScript `Array.prototype.indexOf`: index of the first occurrence, or
`-1` when absent. -/
def jsIndexOf : List ℤ → ℤ → ℤ
  | [], _ => -1
  | b :: bs, a =>
      if b = a then 0
      else
        let r := jsIndexOf bs a
        if r = -1 then -1 else r + 1

/-- The timeline progress computation
`sols.length > 0 ? (selectedIndex / (sols.length - 1)) * 100 : 0`
(`selectedIndex = sols.indexOf(selectedSol)`).  `none` models the non-finite
value (`NaN` / `-Infinity`) that the JavaScript division by zero produces
when `sols.length = 1`. -/
def timelinePercentage (sols : List ℤ) (selectedSol : ℤ) : Option ℚ :=
  if 0 < sols.length then
    (jdiv ((jsIndexOf sols selectedSol : ℤ) : ℚ) ((sols.length : ℚ) - 1)).map
      (fun q => q * 100)
  else some 0

/-- C6 (code bug): on the one-element domain `[5]` with sol `5` selected the
progress computation divides `0` by `0` and yields a non-finite value
(`NaN`), not the `0%` the claim requires; the empty domain does yield `0%`
without dividing, and a two-element domain computes normally. -/
theorem timeline_percentage_divzero :
    timelinePercentage [5] 5 = none ∧
    timelinePercentage ([] : List ℤ) 5 = some 0 ∧
    timelinePercentage [0, 5] 5 = some 100 := by
  refine ⟨?_, rfl, ?_⟩
  · norm_num [timelinePercentage, jsIndexOf, jdiv]
  · norm_num [timelinePercentage, jsIndexOf, jdiv]

/- ------------------------------------------------------------------ -/
/- Discovery notifications (App.js lines 850-879 and 894-896, claim C10). -/

/-- A discovery notification (`{type, title, message, sol}`). -/
structure Notification where
  ntype : String
  title : String
  message : String
  sol : ℤ
deriving DecidableEq

/-- Appending a discovery:
`setNotifications(prev => [...prev.slice(-2), randomDiscovery])`
(`slice(-2)` keeps the at most two most recent entries). -/
def appendNotification (l : List Notification) (n : Notification) : List Notification :=
  l.drop (l.length - 2) ++ [n]

/-- `handleNotificationDismiss(index)`:
`setNotifications(prev => prev.filter((_, i) => i !== index))`. -/
def handleNotificationDismiss (l : List Notification) (idx : ℕ) : List Notification :=
  (l.enum.filter (fun p => p.1 != idx)).map Prod.snd

/-- The operations the client performs on the notification list. -/
inductive NotifOp where
  | append (n : Notification)
  | dismiss (idx : ℕ)

/-- Apply one notification operation. -/
def applyNotifOp (l : List Notification) : NotifOp → List Notification
  | NotifOp.append n => appendNotification l n
  | NotifOp.dismiss i => handleNotificationDismiss l i

theorem appendNotification_length (l : List Notification) (n : Notification) :
    (appendNotification l n).length ≤ 3 := by
  rw [appendNotification]
  rw [List.length_append, List.length_drop]
  simp only [List.length_singleton]
  omega

theorem handleNotificationDismiss_length (l : List Notification) (i : ℕ) :
    (handleNotificationDismiss l i).length ≤ l.length := by
  rw [handleNotificationDismiss, List.length_map]
  calc (l.enum.filter (fun p => p.1 != i)).length ≤ l.enum.length :=
        List.length_filter_le _ _
    _ = l.length := List.enum_length

/-- C10: starting from the empty list, any sequence of appends and
dismissals keeps the notification list at 3 entries or fewer — each append
keeps only the two most recent prior entries plus the new one, and each
dismissal only removes entries. -/
theorem notifications_bounded :
    (∀ ops : List NotifOp, (ops.foldl applyNotifOp ([] : List Notification)).length ≤ 3) ∧
    (∀ (l : List Notification) (n : Notification), (appendNotification l n).length ≤ 3) ∧
    (∀ (l : List Notification) (i : ℕ),
      (handleNotificationDismiss l i).length ≤ l.length) := by
  refine ⟨?_, appendNotification_length, handleNotificationDismiss_length⟩
  have key : ∀ (ops : List NotifOp) (l : List Notification), l.length ≤ 3 →
      (ops.foldl applyNotifOp l).length ≤ 3 := by
    intro ops
    induction ops with
    | nil => intro l hl; exact hl
    | cons op rest ih =>
        intro l hl
        rw [List.foldl_cons]
        apply ih
        cases op with
        | append n => exact appendNotification_length l n
        | dismiss i => exact le_trans (handleNotificationDismiss_length l i) hl
  intro ops
  exact key ops [] (by simp)

/- ------------------------------------------------------------------ -/
/- Timeline seek (`handleInteraction`, App.js lines 549-561, claim C3). -/

/-- The pixel-to-sol conversion of `handleInteraction`:
`percentage = Math.max(0, Math.min(1, x / rect.width))`,
`index = Math.floor(percentage * sols.length)`,
`newSol = sols[Math.min(index, sols.length - 1)]`.
Returns `none` when the handler bails out (`!sols.length`), and also when
`width = 0`, where the JavaScript arithmetic turns non-finite. -/
def seekSol (sols : List ℤ) (x width : ℚ) : Option ℤ :=
  if sols.length = 0 then none
  else if width = 0 then none
  else
    let percentage : ℚ := max 0 (min 1 (x / width))
    let index : ℤ := ⌊percentage * (sols.length : ℚ)⌋
    sols.get? (min index.toNat (sols.length - 1))

/-- The clamped index selected by `seekSol`. -/
def seekIdx (sols : List ℤ) (x width : ℚ) : ℕ :=
  min (⌊max 0 (min 1 (x / width)) * (sols.length : ℚ)⌋).toNat (sols.length - 1)

/-- The guarded state change of `handleInteraction`: the sol passed to
`onSolChange`, or `none` when nothing is done
(`if (newSol !== selectedSol) onSolChange(newSol)`). -/
def handleInteraction (sols : List ℤ) (selectedSol : ℤ) (x width : ℚ) : Option ℤ :=
  match seekSol sols x width with
  | none => none
  | some newSol => if newSol = selectedSol then none else some newSol

theorem seekIdx_lt (sols : List ℤ) (x width : ℚ) (hlen : sols.length ≠ 0) :
    seekIdx sols x width < sols.length :=
  lt_of_le_of_lt (min_le_right _ _) (by omega)

theorem seekSol_eq_get (sols : List ℤ) (x width : ℚ) (hlen : sols.length ≠ 0)
    (hw : width ≠ 0) :
    seekSol sols x width =
      some (sols.get ⟨seekIdx sols x width, seekIdx_lt sols x width hlen⟩) := by
  rw [seekSol, if_neg hlen, if_neg hw]
  exact List.get?_eq_get (seekIdx_lt sols x width hlen)

theorem seekIdx_mono (sols : List ℤ) (x1 x2 width : ℚ) (hw : 0 < width)
    (hx : x1 ≤ x2) : seekIdx sols x1 width ≤ seekIdx sols x2 width := by
  apply min_le_min _ (le_refl _)
  apply Int.toNat_le_toNat
  apply Int.floor_le_floor
  apply mul_le_mul_of_nonneg_right _ (Nat.cast_nonneg _)
  apply max_le_max (le_refl _)
  apply min_le_min (le_refl _)
  exact (div_le_div_iff_of_pos_right hw).mpr hx

/-- C3: over a non-empty ascending sol domain and a positive track width,
the sol computed by the seek is monotone in the pointer position, always a
member of the domain lying between its first and last element, and the
handler performs no state change when the computed sol equals the currently
selected one. -/
theorem seek_monotone (sols : List ℤ) (selectedSol : ℤ) (x1 x2 width : ℚ)
    (hsorted : List.Sorted (· ≤ ·) sols) (hne : sols ≠ [])
    (hw : 0 < width) (hx : x1 ≤ x2) :
    (∃ s1 s2, seekSol sols x1 width = some s1 ∧ seekSol sols x2 width = some s2 ∧
      s1 ≤ s2) ∧
    (∀ x s, seekSol sols x width = some s → s ∈ sols ∧
      (∀ lo, sols.head? = some lo → lo ≤ s) ∧
      (∀ hi, sols.getLast? = some hi → s ≤ hi)) ∧
    (∀ x, seekSol sols x width = some selectedSol →
      handleInteraction sols selectedSol x width = none) := by
  have hlen : sols.length ≠ 0 := fun h => hne (List.length_eq_zero.mp h)
  have hw0 : width ≠ 0 := ne_of_gt hw
  refine ⟨?_, ?_, ?_⟩
  · refine ⟨_, _, seekSol_eq_get sols x1 width hlen hw0,
      seekSol_eq_get sols x2 width hlen hw0, ?_⟩
    exact hsorted.rel_get_of_le (Fin.mk_le_mk.mpr (seekIdx_mono sols x1 x2 width hw hx))
  · intro x s hxs
    rw [seekSol_eq_get sols x width hlen hw0] at hxs
    have hs : s = sols.get ⟨seekIdx sols x width, seekIdx_lt sols x width hlen⟩ :=
      (Option.some.inj hxs).symm
    refine ⟨hs ▸ List.get_mem sols _ _, ?_, ?_⟩
    · intro lo hlo
      have h0 : (0 : ℕ) < sols.length := Nat.pos_of_ne_zero hlen
      have hlo2 : lo = sols.get ⟨0, h0⟩ := by
        rw [← List.get?_zero, List.get?_eq_get h0] at hlo
        exact (Option.some.inj hlo).symm
      rw [hs, hlo2]
      exact hsorted.rel_get_of_le (Fin.mk_le_mk.mpr (Nat.zero_le _))
    · intro hi hhi
      have hlast : sols.getLast? = sols.get? (sols.length - 1) := List.getLast?_eq_get? sols
      have hl : sols.length - 1 < sols.length := by omega
      have hhi2 : hi = sols.get ⟨sols.length - 1, hl⟩ := by
        rw [hlast, List.get?_eq_get hl] at hhi
        exact (Option.some.inj hhi).symm
      rw [hs, hhi2]
      exact hsorted.rel_get_of_le (Fin.mk_le_mk.mpr (min_le_right _ _))
  · intro x hs
    rw [handleInteraction, hs]
    simp

/-- Witness for `seek_monotone` on the domain `[0, 18, 60]`, selected sol
`18`, pointer positions `1 ≤ 9` and track width `10`. -/
theorem seek_monotone_witness :
    (∃ s1 s2, seekSol [0, 18, 60] 1 10 = some s1 ∧
      seekSol [0, 18, 60] 9 10 = some s2 ∧ s1 ≤ s2) ∧
    (∀ x s, seekSol [0, 18, 60] x 10 = some s → s ∈ ([0, 18, 60] : List ℤ) ∧
      (∀ lo, ([0, 18, 60] : List ℤ).head? = some lo → lo ≤ s) ∧
      (∀ hi, ([0, 18, 60] : List ℤ).getLast? = some hi → s ≤ hi)) ∧
    (∀ x, seekSol [0, 18, 60] x 10 = some 18 →
      handleInteraction [0, 18, 60] 18 x 10 = none) :=
  seek_monotone [0, 18, 60] 18 1 9 10 (by decide) (by decide) (by decide) (by decide)

/- ------------------------------------------------------------------ -/
/- The rover-data fetch workflow (`fetchRoverData`, App.js lines 811-844,
claims C8 and C9). -/

/-- A rover payload as far as the client inspects it: `header.sol` plus the
telemetry metrics and camera data it renders. -/
structure Payload where
  sol : ℤ
  telemetry : List ℚ
  cameras : List (String × List String)
deriving DecidableEq

/-- The cache key `rover-data-${sol || 'latest'}` (see `CacheKey`): the
falsy sols `null` and `0` both give the `latest` form. -/
def cacheKey (sol : Option ℤ) : CacheKey :=
  match sol with
  | none => none
  | some s => if s = 0 then none else some s

/-- The endpoint `sol ? '/rover-data/${sol}' : '/rover-data'`, modelled like
the cache key: `none` is the bare `/rover-data` endpoint. -/
def endpointFor (sol : Option ℤ) : Option ℤ :=
  match sol with
  | none => none
  | some s => if s = 0 then none else some s

/-- The network as a deterministic oracle from endpoint to response:
`Except.error` models a thrown/failed `axios.get`. -/
def Network := Option ℤ → Except String Payload

/-- The client state touched by `fetchRoverData`, with a log of the
endpoints it actually requested over the network. -/
structure FetchState where
  cache : Cache Payload
  roverData : Option Payload
  selectedSol : Option ℤ
  errorMsg : Option String
  loading : Bool
  lastUpdateTime : Option ℤ
  requestLog : List (Option ℤ)

/-- The initial client state (`roverData = null`, `loading = true`,
empty cache). -/
def initialFetchState : FetchState where
  cache := fun _ => none
  roverData := none
  selectedSol := none
  errorMsg := none
  loading := true
  lastUpdateTime := none
  requestLog := []

/-- The part of `fetchRoverData` from `axios.get` onwards: on success the
response is cached and displayed, on failure only the error message is set
(the `finally` clears `loading` on both paths). -/
def fetchFromNetwork (net : Network) (now : ℤ) (sol : Option ℤ) (s : FetchState) :
    FetchState :=
  match net (endpointFor sol) with
  | Except.ok payload =>
      { s with
        cache := DataCache.set s.cache (cacheKey sol) payload now
        roverData := some payload
        selectedSol := some payload.sol
        errorMsg := none
        lastUpdateTime := some now
        loading := false
        requestLog := s.requestLog ++ [endpointFor sol] }
  | Except.error _ =>
      { s with
        errorMsg := some "Communication link lost"
        loading := false
        requestLog := s.requestLog ++ [endpointFor sol] }

/-- `fetchRoverData(sol, forceRefresh)` executed when `Date.now()` is `now`:
unless a forced refresh is requested, a fresh cache entry is rendered
without any network request; otherwise the network is consulted. -/
def fetchRoverData (net : Network) (now : ℤ) (sol : Option ℤ) (force : Bool)
    (s : FetchState) : FetchState :=
  if force = false ∧ DataCache.isStale s.cache (cacheKey sol) now = false then
    match DataCache.get s.cache (cacheKey sol) with
    | some cached =>
        { s with
          roverData := some cached.data
          selectedSol := some cached.data.sol
          errorMsg := none
          loading := false }
    | none => fetchFromNetwork net now sol s
  else fetchFromNetwork net now sol s

/-- `handleSolChange(newSol)`: fetch only when the sol actually changes. -/
def handleSolChange (net : Network) (now : ℤ) (newSol : ℤ) (s : FetchState) :
    FetchState :=
  if some newSol ≠ s.selectedSol then fetchRoverData net now (some newSol) false s
  else s

/-- C9: when the network request fails, `DataCache.set` is never reached, so
the cache is completely unchanged, the previously displayed payload and
selected sol survive, and only the error message is set. -/
theorem fetch_error_preserves_state (net : Network) (now : ℤ) (sol : Option ℤ)
    (force : Bool) (s : FetchState) (msg : String)
    (hnet : net (endpointFor sol) = Except.error msg)
    (hpath : force = true ∨ DataCache.isStale s.cache (cacheKey sol) now = true ∨
      DataCache.get s.cache (cacheKey sol) = none) :
    (fetchRoverData net now sol force s).cache = s.cache ∧
    (fetchRoverData net now sol force s).roverData = s.roverData ∧
    (fetchRoverData net now sol force s).selectedSol = s.selectedSol ∧
    (fetchRoverData net now sol force s).errorMsg = some "Communication link lost" := by
  have hfn : fetchFromNetwork net now sol s =
      { s with
        errorMsg := some "Communication link lost"
        loading := false
        requestLog := s.requestLog ++ [endpointFor sol] } := by
    rw [fetchFromNetwork, hnet]
  have hred : fetchRoverData net now sol force s = fetchFromNetwork net now sol s := by
    rw [fetchRoverData]
    by_cases hc : (force = false ∧ DataCache.isStale s.cache (cacheKey sol) now = false)
    · rcases hpath with hf | hstale | hget
      · rw [hf] at hc
        exact absurd hc.1 (by simp)
      · rw [hstale] at hc
        exact absurd hc.2 (by simp)
      · rw [if_pos hc, hget]
    · rw [if_neg hc]
  rw [hred, hfn]
  exact ⟨rfl, rfl, rfl, rfl⟩

/-- Witness for `fetch_error_preserves_state`: a failing network, sol `5`,
cold initial state. -/
theorem fetch_error_preserves_state_witness :
    (fetchRoverData (fun _ => Except.error "netdown") 0 (some 5) false
        initialFetchState).cache = initialFetchState.cache ∧
    (fetchRoverData (fun _ => Except.error "netdown") 0 (some 5) false
        initialFetchState).roverData = initialFetchState.roverData ∧
    (fetchRoverData (fun _ => Except.error "netdown") 0 (some 5) false
        initialFetchState).selectedSol = initialFetchState.selectedSol ∧
    (fetchRoverData (fun _ => Except.error "netdown") 0 (some 5) false
        initialFetchState).errorMsg = some "Communication link lost" :=
  fetch_error_preserves_state (fun _ => Except.error "netdown") 0 (some 5) false
    initialFetchState "netdown" rfl (Or.inr (Or.inr rfl))

theorem cacheKey_ne (N M : ℤ) (h : N ≠ M) : cacheKey (some N) ≠ cacheKey (some M) := by
  simp only [cacheKey]
  by_cases hN : N = 0 <;> by_cases hM : M = 0
  · exact absurd (hN.trans hM.symm) h
  · simp [hN, hM]
  · simp [hN, hM]
  · simp [hN, hM, h]

/-- A fetch for one sol never touches cache entries of other keys. -/
theorem fetch_cache_other (net : Network) (now : ℤ) (sol : Option ℤ) (force : Bool)
    (s : FetchState) (k : CacheKey) (hk : k ≠ cacheKey sol) :
    (fetchRoverData net now sol force s).cache k = s.cache k := by
  have hfn : (fetchFromNetwork net now sol s).cache k = s.cache k := by
    rw [fetchFromNetwork]
    cases hnet : net (endpointFor sol) with
    | ok payload => simp [DataCache.set, hk]
    | error e => rfl
  rw [fetchRoverData]
  by_cases hc : (force = false ∧ DataCache.isStale s.cache (cacheKey sol) now = false)
  · rw [if_pos hc]
    cases hget : DataCache.get s.cache (cacheKey sol) with
    | some cached => rfl
    | none => exact hfn
  · rw [if_neg hc]
    exact hfn

/-- C8 (amended): selecting sol `N` (cold), then sol `M`, then sol `N` again
within the 5-minute window issues exactly one network request for `N` — the
third fetch adds nothing to the request log — and renders the identical
cached payload `p` both times. -/
theorem roundtrip_cache_hit (net : Network) (t0 t1 t2 : ℤ) (N M : ℤ) (p : Payload)
    (s0 : FetchState)
    (hcold : DataCache.get s0.cache (cacheKey (some N)) = none)
    (hnet : net (endpointFor (some N)) = Except.ok p)
    (hNM : N ≠ M)
    (ht : t2 - t0 ≤ 300000) :
    (fetchRoverData net t0 (some N) false s0).requestLog =
      s0.requestLog ++ [endpointFor (some N)] ∧
    (fetchRoverData net t0 (some N) false s0).roverData = some p ∧
    (fetchRoverData net t2 (some N) false
        (fetchRoverData net t1 (some M) false
          (fetchRoverData net t0 (some N) false s0))).requestLog =
      (fetchRoverData net t1 (some M) false
        (fetchRoverData net t0 (some N) false s0)).requestLog ∧
    (fetchRoverData net t2 (some N) false
        (fetchRoverData net t1 (some M) false
          (fetchRoverData net t0 (some N) false s0))).roverData = some p := by
  have hstale0 : DataCache.isStale s0.cache (cacheKey (some N)) t0 = true := by
    rw [DataCache.isStale, show s0.cache (cacheKey (some N)) = none from hcold]
  have h1 : fetchRoverData net t0 (some N) false s0 =
      fetchFromNetwork net t0 (some N) s0 := by
    rw [fetchRoverData, if_neg]
    intro hc
    rw [hstale0] at hc
    exact absurd hc.2 (by simp)
  have h1e : fetchFromNetwork net t0 (some N) s0 =
      { s0 with
        cache := DataCache.set s0.cache (cacheKey (some N)) p t0
        roverData := some p
        selectedSol := some p.sol
        errorMsg := none
        lastUpdateTime := some t0
        loading := false
        requestLog := s0.requestLog ++ [endpointFor (some N)] } := by
    rw [fetchFromNetwork, hnet]
  have hcache1 : (fetchRoverData net t0 (some N) false s0).cache (cacheKey (some N)) =
      some ⟨p, t0⟩ := by
    rw [h1, h1e]
    simp [DataCache.set]
  have hcache2 : (fetchRoverData net t1 (some M) false
      (fetchRoverData net t0 (some N) false s0)).cache (cacheKey (some N)) =
      some ⟨p, t0⟩ := by
    rw [fetch_cache_other net t1 (some M) false _ _ (cacheKey_ne N M hNM)]
    exact hcache1
  have hstale2 : DataCache.isStale (fetchRoverData net t1 (some M) false
      (fetchRoverData net t0 (some N) false s0)).cache (cacheKey (some N)) t2 = false := by
    rw [DataCache.isStale, show (fetchRoverData net t1 (some M) false
      (fetchRoverData net t0 (some N) false s0)).cache (cacheKey (some N)) =
      some ⟨p, t0⟩ from hcache2]
    simp only [DataCache.UPDATE_INTERVAL]
    rw [decide_eq_false_iff_not]
    omega
  have h3 : fetchRoverData net t2 (some N) false
      (fetchRoverData net t1 (some M) false
        (fetchRoverData net t0 (some N) false s0)) =
      { (fetchRoverData net t1 (some M) false
          (fetchRoverData net t0 (some N) false s0)) with
        roverData := some p
        selectedSol := some p.sol
        errorMsg := none
        loading := false } := by
    rw [fetchRoverData, if_pos ⟨rfl, hstale2⟩,
      show DataCache.get (fetchRoverData net t1 (some M) false
        (fetchRoverData net t0 (some N) false s0)).cache (cacheKey (some N)) =
        some ⟨p, t0⟩ from hcache2]
  refine ⟨?_, ?_, ?_, ?_⟩
  · rw [h1, h1e]
  · rw [h1, h1e]
  · rw [h3]
  · rw [h3]

/-- Witness for `roundtrip_cache_hit`: sols `1`, `2`, `1` at times `0, 1, 2`
against a server answering the payload `⟨5, [], []⟩`. -/
theorem roundtrip_cache_hit_witness :
    (fetchRoverData (fun _ => Except.ok (⟨5, [], []⟩ : Payload)) 0 (some 1) false
        initialFetchState).requestLog =
      initialFetchState.requestLog ++ [endpointFor (some 1)] ∧
    (fetchRoverData (fun _ => Except.ok (⟨5, [], []⟩ : Payload)) 0 (some 1) false
        initialFetchState).roverData = some (⟨5, [], []⟩ : Payload) ∧
    (fetchRoverData (fun _ => Except.ok (⟨5, [], []⟩ : Payload)) 2 (some 1) false
        (fetchRoverData (fun _ => Except.ok (⟨5, [], []⟩ : Payload)) 1 (some 2) false
          (fetchRoverData (fun _ => Except.ok (⟨5, [], []⟩ : Payload)) 0 (some 1) false
            initialFetchState))).requestLog =
      (fetchRoverData (fun _ => Except.ok (⟨5, [], []⟩ : Payload)) 1 (some 2) false
        (fetchRoverData (fun _ => Except.ok (⟨5, [], []⟩ : Payload)) 0 (some 1) false
          initialFetchState)).requestLog ∧
    (fetchRoverData (fun _ => Except.ok (⟨5, [], []⟩ : Payload)) 2 (some 1) false
        (fetchRoverData (fun _ => Except.ok (⟨5, [], []⟩ : Payload)) 1 (some 2) false
          (fetchRoverData (fun _ => Except.ok (⟨5, [], []⟩ : Payload)) 0 (some 1) false
            initialFetchState))).roverData = some (⟨5, [], []⟩ : Payload) :=
  roundtrip_cache_hit (fun _ => Except.ok ⟨5, [], []⟩) 0 1 2 1 2 ⟨5, [], []⟩
    initialFetchState rfl rfl (by decide) (by decide)

/-- `generateTelemetryData(baseValue, variation, sols = 50)` (App.js lines
899-904), the client-side chart data rendered by the telemetry cards.
`Math.sin` is passed as the oracle `sinOracle` (it is transcendental, hence
not representable over `ℚ`) and the successive `Math.random()` draws as the
stream `randoms`; everything else is the source arithmetic:
`Math.max(0, base + variation * Math.sin(sol * 0.1)
          + (Math.random() - 0.5) * variation * 0.2)`
with `sol = Math.max(0, selectedSol - sols + i + 1)`. -/
def generateTelemetryData (sinOracle : ℚ → ℚ) (randoms : ℕ → ℚ) (selectedSol : ℤ)
    (baseValue variation : ℚ) (sols : ℕ) : List ℚ :=
  (List.range sols).map fun (i : ℕ) =>
    let sol : ℤ := max 0 (selectedSol - (sols : ℤ) + (i : ℤ) + 1)
    max 0 (baseValue + variation * sinOracle ((sol : ℚ) * (1 / 10)) +
      (randoms i - 1 / 2) * variation * (1 / 5))

/-- C8 counterexample: re-selecting the same sol re-runs
`generateTelemetryData`, whose output depends on fresh `Math.random()`
draws, so the two renders of sol `N` need not show identical telemetry
chart data.  Concretely, with the temperature card's parameters
(`base 203`, `variation 20`, `50` samples, selected sol `1000`) and any
fixed `sin`, the draw streams constantly `0` and constantly `1/2` — both
values `Math.random()` can return, since it ranges over `[0, 1)` — produce
different chart data (`201` vs `203` at index `0`), refuting the claim that
both selections of sol `N` render identical telemetry data. -/
theorem telemetry_regen_differs :
    generateTelemetryData (fun _ => 0) (fun _ => 0) 1000 203 20 50 ≠
      generateTelemetryData (fun _ => 0) (fun _ => 1 / 2) 1000 203 20 50 := by
  intro h
  have h0 := congrArg (fun l => l.get? 0) h
  simp only [generateTelemetryData, List.get?_map] at h0
  rw [List.get?_range (by norm_num : (0 : ℕ) < 50)] at h0
  norm_num [max_def] at h0

/- ------------------------------------------------------------------ -/
/- Auto-play timer chain (`startAutoPlay` / `playNext` / `stopAutoPlay`
of the timeline component, part_001 lines 811-846; `handleMouseDown` and
`stopAutoPlay` are identical in both revisions; claims C4 and C5). -/

/-- A catalog mission event, as read by the auto-play scheduler (which only
uses its `sol`). -/
structure MissionEvent where
  sol : ℤ
deriving DecidableEq

/-- The timeline component state relevant to auto-play.  `timers` holds all
currently pending scheduled callbacks as `(id, delay-ms)` pairs (the
browser may hold several pending timeouts; the component intends to own at
most one), `refId` is `autoPlayRef.current` (`none` for `null`), `events`
and `currentIndex` are the variables captured by the running `playNext`
closure, and `solLog` records every `onSolChange` invocation in order. -/
structure APState where
  timers : List (ℕ × ℚ)
  nextId : ℕ
  refId : Option ℕ
  isAutoPlay : Bool
  isDragging : Bool
  events : List MissionEvent
  currentIndex : ℕ
  selectedSol : ℤ
  solLog : List ℤ
deriving DecidableEq

/-- `startAutoPlay()` (part_001): bail out if a chain is active
(`if (autoPlayRef.current) return`); otherwise play the filtered events with
sols in `[0, 1000]`, select sol `1`, and schedule the first `playNext` after
`1000 / playbackSpeed` ms. -/
def startAutoPlay (filtered : List MissionEvent) (speed : ℚ) (s : APState) : APState :=
  if s.refId.isSome then s
  else
    let eventsToPlay := filtered.filter fun e => decide (0 ≤ e.sol) && decide (e.sol ≤ 1000)
    { s with
      isAutoPlay := true
      events := eventsToPlay
      currentIndex := 0
      selectedSol := 1
      solLog := s.solLog ++ [1]
      timers := s.timers ++ [(s.nextId, 1000 / speed)]
      refId := some s.nextId
      nextId := s.nextId + 1 }

/-- The pending timeout with identifier `id` fires and runs `playNext`: if
events remain, select the next event's sol and schedule the following step
after `2000 / playbackSpeed` ms; otherwise select sol `1000`, stop, and
clear the ref.  A timeout that is not pending cannot fire. -/
def fireTimer (id : ℕ) (speed : ℚ) (s : APState) : APState :=
  if s.timers.all (fun t => t.1 != id) then s
  else if h : s.currentIndex < s.events.length then
    { s with
      timers := (s.timers.filter fun t => t.1 != id) ++ [(s.nextId, 2000 / speed)]
      refId := some s.nextId
      nextId := s.nextId + 1
      selectedSol := (s.events.get ⟨s.currentIndex, h⟩).sol
      solLog := s.solLog ++ [(s.events.get ⟨s.currentIndex, h⟩).sol]
      currentIndex := s.currentIndex + 1 }
  else
    { s with
      timers := s.timers.filter fun t => t.1 != id
      refId := none
      isAutoPlay := false
      selectedSol := 1000
      solLog := s.solLog ++ [1000] }

/-- Observable actions of the mouse-down handler, for stating in which
order the seek and the timer cancellation happen. -/
inductive UIAct where
  | setDragging (b : Bool)
  | applySeek (sol : ℤ)
  | clearTimer (id : ℕ)
  | setAutoPlayFlag (b : Bool)
deriving DecidableEq

/-- `stopAutoPlay()`: `clearTimeout(autoPlayRef.current)` and null the ref
when set, then `setIsAutoPlay(false)`; paired with its action trace. -/
def stopAutoPlayTr (s : APState) : APState × List UIAct :=
  match s.refId with
  | some id =>
      ({ s with
          timers := s.timers.filter fun t => t.1 != id
          refId := none
          isAutoPlay := false },
        [UIAct.clearTimer id, UIAct.setAutoPlayFlag false])
  | none => ({ s with isAutoPlay := false }, [UIAct.setAutoPlayFlag false])

/-- `handleInteraction(e)` acting on the component state (the seek logic is
`handleInteraction` above), paired with its action trace. -/
def handleInteractionTr (sols : List ℤ) (x width : ℚ) (s : APState) :
    APState × List UIAct :=
  match handleInteraction sols s.selectedSol x width with
  | some newSol =>
      ({ s with selectedSol := newSol, solLog := s.solLog ++ [newSol] },
        [UIAct.applySeek newSol])
  | none => (s, [])

/-- `handleMouseDown(e)` (App.js lines 573-577): `setIsDragging(true)`, then
`handleInteraction(e)`, then `stopAutoPlay()` — in that source order. -/
def handleMouseDown (sols : List ℤ) (x width : ℚ) (s : APState) :
    APState × List UIAct :=
  let s1 := { s with isDragging := true }
  let r2 := handleInteractionTr sols x width s1
  let r3 := stopAutoPlayTr r2.1
  (r3.1, UIAct.setDragging true :: (r2.2 ++ r3.2))

/-- Indices (in event order) of the trace actions satisfying `p`. -/
def actIdxs (p : UIAct → Bool) (tr : List UIAct) : List ℕ :=
  (tr.enum.filter fun q => p q.2).map Prod.fst

/-- Is the action a `clearTimeout` of the pending auto-play timer? -/
def isClearAct : UIAct → Bool
  | UIAct.clearTimer _ => true
  | _ => false

/-- Is the action the application of a new seek (`onSolChange`)? -/
def isSeekAct : UIAct → Bool
  | UIAct.applySeek _ => true
  | _ => false

/-- The claim's ordering property: every timer cancellation in the trace
happens strictly before every seek application. -/
def clearedBeforeSeek (tr : List UIAct) : Prop :=
  ∀ i ∈ actIdxs isClearAct tr, ∀ j ∈ actIdxs isSeekAct tr, i < j

/-- Run the single deterministic timer chain for `n` steps: at each step the
unique pending timeout (if any) fires. -/
def runChain (speed : ℚ) : ℕ → APState → APState
  | 0, s => s
  | n + 1, s =>
      match s.timers with
      | [] => s
      | t :: _ => runChain speed n (fireTimer t.1 speed s)

/-- The component's timer-ownership invariant: every pending timeout is the
one `autoPlayRef` points at, and at most one is pending. -/
def APInv (s : APState) : Prop :=
  (∀ t ∈ s.timers, some t.1 = s.refId) ∧ s.timers.length ≤ 1

/-- A timeline state with auto-play active: one pending transition timer
(id `0`), owned by `autoPlayRef`, with sol `18` selected. -/
def c4AutoState : APState :=
  { timers := [(0, 2000)]
    nextId := 1
    refId := some 0
    isAutoPlay := true
    isDragging := false
    events := [⟨60⟩]
    currentIndex := 0
    selectedSol := 18
    solLog := [] }

/-- C4 counterexample: in `handleMouseDown` the source order is
`setIsDragging(true); handleInteraction(e); stopAutoPlay()`, so on a drag at
`x = 10` over a width-`10` track (seeking sol `60 ≠ 18`) the new seek is
applied at trace position 1 and the pending timer is cleared only at trace
position 2 — the claim that the timer is cleared before the new seek is
applied is false. -/
theorem mousedown_clear_not_before_seek :
    ¬ clearedBeforeSeek (handleMouseDown [0, 18, 60] 10 10 c4AutoState).2 := by
  have hseek : seekSol [0, 18, 60] 10 10 = some 60 := by
    norm_num [seekSol, List.get?]
  have htr : (handleMouseDown [0, 18, 60] 10 10 c4AutoState).2 =
      [UIAct.setDragging true, UIAct.applySeek 60, UIAct.clearTimer 0,
        UIAct.setAutoPlayFlag false] := by
    simp only [handleMouseDown, handleInteractionTr, handleInteraction, c4AutoState,
      stopAutoPlayTr, hseek]
    norm_num
  rw [htr]
  unfold clearedBeforeSeek
  decide

/-- C4 amended: a drag cancels auto-play synchronously within the same
handler turn — the pending timer is cleared before the handler returns,
though after (not before) the new seek is applied — and afterwards no
pending timer remains, so no timer can fire and no further auto-play-driven
sol change occurs. -/
theorem mousedown_cancels_autoplay (sols : List ℤ) (x width : ℚ) (s : APState)
    (href : ∀ t ∈ s.timers, some t.1 = s.refId) :
    (handleMouseDown sols x width s).1.timers = [] ∧
    (handleMouseDown sols x width s).1.refId = none ∧
    (∀ id, s.refId = some id → UIAct.clearTimer id ∈ (handleMouseDown sols x width s).2) ∧
    (∀ i ∈ actIdxs isSeekAct (handleMouseDown sols x width s).2,
      ∀ j ∈ actIdxs isClearAct (handleMouseDown sols x width s).2, i < j) ∧
    (∀ id speed, fireTimer id speed (handleMouseDown sols x width s).1 =
      (handleMouseDown sols x width s).1) := by
  have hfire : ∀ u : APState, u.timers = [] → ∀ id speed, fireTimer id speed u = u := by
    intro u hu id speed
    rw [fireTimer, if_pos (by rw [hu]; rfl)]
  have horder : ∀ tr : List UIAct,
      (tr = [UIAct.setDragging true, UIAct.setAutoPlayFlag false] ∨
       (∃ n, tr = [UIAct.setDragging true, UIAct.applySeek n, UIAct.setAutoPlayFlag false]) ∨
       (∃ i, tr = [UIAct.setDragging true, UIAct.clearTimer i, UIAct.setAutoPlayFlag false]) ∨
       (∃ n i, tr = [UIAct.setDragging true, UIAct.applySeek n, UIAct.clearTimer i,
          UIAct.setAutoPlayFlag false])) →
      ∀ i ∈ actIdxs isSeekAct tr, ∀ j ∈ actIdxs isClearAct tr, i < j := by
    intro tr htr
    rcases htr with h | ⟨n, h⟩ | ⟨i0, h⟩ | ⟨n, i0, h⟩ <;> subst h <;>
      simp [actIdxs, isSeekAct, isClearAct, List.enum, List.enumFrom]
  cases hrid : s.refId with
  | none =>
      have htimers : s.timers = [] := by
        cases ht : s.timers with
        | nil => rfl
        | cons t rest =>
            have := href t (ht ▸ List.mem_cons_self t rest)
            rw [hrid] at this
            exact absurd this (by simp)
      cases hint : handleInteraction sols s.selectedSol x width with
      | none =>
          have heq : handleMouseDown sols x width s =
              ({ s with isDragging := true, isAutoPlay := false, refId := none },
                [UIAct.setDragging true, UIAct.setAutoPlayFlag false]) := by
            simp only [handleMouseDown, handleInteractionTr, stopAutoPlayTr, hint, hrid]
            rfl
          rw [heq]
          refine ⟨htimers, rfl, ?_, ?_, ?_⟩
          · intro id hid
            exact absurd hid (by simp)
          · exact horder _ (Or.inl rfl)
          · intro id speed
            apply hfire
            exact htimers
      | some newSol =>
          have heq : handleMouseDown sols x width s =
              ({ s with
                  isDragging := true
                  selectedSol := newSol
                  solLog := s.solLog ++ [newSol]
                  isAutoPlay := false
                  refId := none },
                [UIAct.setDragging true, UIAct.applySeek newSol,
                  UIAct.setAutoPlayFlag false]) := by
            simp only [handleMouseDown, handleInteractionTr, stopAutoPlayTr, hint, hrid]
            rfl
          rw [heq]
          refine ⟨htimers, rfl, ?_, ?_, ?_⟩
          · intro id hid
            exact absurd hid (by simp)
          · exact horder _ (Or.inr (Or.inl ⟨newSol, rfl⟩))
          · intro id speed
            apply hfire
            exact htimers
  | some id0 =>
      have hmain : (s.timers.filter fun t => t.1 != id0) = [] := by
        rw [List.filter_eq_nil]
        intro t htl
        have h2 := href t htl
        rw [hrid] at h2
        have := Option.some.inj h2
        simp [this]
      cases hint : handleInteraction sols s.selectedSol x width with
      | none =>
          have heq : handleMouseDown sols x width s =
              ({ s with
                  isDragging := true
                  timers := s.timers.filter fun t => t.1 != id0
                  refId := none
                  isAutoPlay := false },
                [UIAct.setDragging true, UIAct.clearTimer id0,
                  UIAct.setAutoPlayFlag false]) := by
            simp only [handleMouseDown, handleInteractionTr, stopAutoPlayTr, hint, hrid]
            rfl
          rw [heq]
          refine ⟨hmain, rfl, ?_, ?_, ?_⟩
          · intro id hid
            rw [Option.some.inj hid]
            simp
          · exact horder _ (Or.inr (Or.inr (Or.inl ⟨id0, rfl⟩)))
          · intro id speed
            apply hfire
            exact hmain
      | some newSol =>
          have heq : handleMouseDown sols x width s =
              ({ s with
                  isDragging := true
                  selectedSol := newSol
                  solLog := s.solLog ++ [newSol]
                  timers := s.timers.filter fun t => t.1 != id0
                  refId := none
                  isAutoPlay := false },
                [UIAct.setDragging true, UIAct.applySeek newSol, UIAct.clearTimer id0,
                  UIAct.setAutoPlayFlag false]) := by
            simp only [handleMouseDown, handleInteractionTr, stopAutoPlayTr, hint, hrid]
            rfl
          rw [heq]
          refine ⟨hmain, rfl, ?_, ?_, ?_⟩
          · intro id hid
            rw [Option.some.inj hid]
            simp
          · exact horder _ (Or.inr (Or.inr (Or.inr ⟨newSol, id0, rfl⟩)))
          · intro id speed
            apply hfire
            exact hmain

/-- Witness for `mousedown_cancels_autoplay` on the active auto-play state
`c4AutoState` and a drag at `x = 10` over a width-`10` track. -/
theorem mousedown_cancels_autoplay_witness :
    (handleMouseDown [0, 18, 60] 10 10 c4AutoState).1.timers = [] ∧
    (handleMouseDown [0, 18, 60] 10 10 c4AutoState).1.refId = none ∧
    (∀ id, c4AutoState.refId = some id →
      UIAct.clearTimer id ∈ (handleMouseDown [0, 18, 60] 10 10 c4AutoState).2) ∧
    (∀ i ∈ actIdxs isSeekAct (handleMouseDown [0, 18, 60] 10 10 c4AutoState).2,
      ∀ j ∈ actIdxs isClearAct (handleMouseDown [0, 18, 60] 10 10 c4AutoState).2,
        i < j) ∧
    (∀ id speed, fireTimer id speed (handleMouseDown [0, 18, 60] 10 10 c4AutoState).1 =
      (handleMouseDown [0, 18, 60] 10 10 c4AutoState).1) :=
  mousedown_cancels_autoplay [0, 18, 60] 10 10 c4AutoState (by decide)

theorem timers_nil_of_refId_none (s : APState)
    (h1 : ∀ t ∈ s.timers, some t.1 = s.refId) (h : s.refId = none) :
    s.timers = [] := by
  cases ht : s.timers with
  | nil => rfl
  | cons t rest =>
      have := h1 t (ht ▸ List.mem_cons_self t rest)
      rw [h] at this
      exact absurd this (by simp)

/-- If a pending timer with identifier `id` exists, then under the
invariant the timer list is exactly that one timer. -/
theorem timers_single_of_fired (s : APState) (id : ℕ) (hinv : APInv s)
    (hfired : s.timers.all (fun t => t.1 != id) = false) :
    ∃ d, s.timers = [(id, d)] ∧ (s.timers.filter fun t => t.1 != id) = [] := by
  cases ht : s.timers with
  | nil =>
      rw [ht] at hfired
      exact absurd hfired (by simp)
  | cons t rest =>
      have hlen := hinv.2
      rw [ht] at hlen
      have hrest : rest = [] := by
        rw [List.length_cons] at hlen
        exact List.eq_nil_of_length_eq_zero (by omega)
      subst hrest
      rw [ht] at hfired
      simp only [List.all_cons, List.all_nil, Bool.and_true] at hfired
      have hid : t.1 = id := by
        rwa [bne_eq_false_iff_eq] at hfired
      refine ⟨t.2, ?_, ?_⟩
      · rw [← hid]
      · rw [List.filter_cons, if_neg (by simp [hfired]), List.filter_nil]

theorem fireTimer_noop (id : ℕ) (speed : ℚ) (s : APState)
    (h : s.timers.all (fun t => t.1 != id) = true) : fireTimer id speed s = s := by
  rw [fireTimer, if_pos h]

theorem fireTimer_step (id : ℕ) (d speed : ℚ) (s : APState)
    (ht : s.timers = [(id, d)]) (h : s.currentIndex < s.events.length) :
    fireTimer id speed s =
      { s with
        timers := [(s.nextId, 2000 / speed)]
        refId := some s.nextId
        nextId := s.nextId + 1
        selectedSol := (s.events.get ⟨s.currentIndex, h⟩).sol
        solLog := s.solLog ++ [(s.events.get ⟨s.currentIndex, h⟩).sol]
        currentIndex := s.currentIndex + 1 } := by
  have hall : s.timers.all (fun t => t.1 != id) = false := by rw [ht]; simp
  have hfil : (s.timers.filter fun t => t.1 != id) = [] := by rw [ht]; simp
  rw [fireTimer, if_neg (by simp [hall]), dif_pos h, hfil]
  rfl

theorem fireTimer_last (id : ℕ) (d speed : ℚ) (s : APState)
    (ht : s.timers = [(id, d)]) (h : ¬ s.currentIndex < s.events.length) :
    fireTimer id speed s =
      { s with
        timers := []
        refId := none
        isAutoPlay := false
        selectedSol := 1000
        solLog := s.solLog ++ [1000] } := by
  have hall : s.timers.all (fun t => t.1 != id) = false := by rw [ht]; simp
  have hfil : (s.timers.filter fun t => t.1 != id) = [] := by rw [ht]; simp
  rw [fireTimer, if_neg (by simp [hall]), dif_neg h, hfil]

/-- Running the timer chain to completion from any mid-chain state: the
remaining events' sols are selected in order, then sol `1000`, and the chain
ends stopped with no pending timer. -/
theorem runChain_completes (speed : ℚ) :
    ∀ (m : ℕ) (s : APState), s.events.length - s.currentIndex = m →
      s.currentIndex ≤ s.events.length →
      (∃ id d, s.timers = [(id, d)]) →
      (runChain speed (m + 1) s).solLog =
          s.solLog ++ (s.events.drop s.currentIndex).map (·.sol) ++ [1000] ∧
      (runChain speed (m + 1) s).timers = [] ∧
      (runChain speed (m + 1) s).isAutoPlay = false ∧
      (runChain speed (m + 1) s).refId = none := by
  intro m
  induction m with
  | zero =>
      rintro s hm hle ⟨id, d, ht⟩
      have hidx : ¬ s.currentIndex < s.events.length := by omega
      have hstep : runChain speed 1 s = fireTimer id speed s := by
        simp only [runChain, ht]
      rw [hstep, fireTimer_last id d speed s ht hidx]
      refine ⟨?_, rfl, rfl, rfl⟩
      have hdrop : s.events.drop s.currentIndex = [] :=
        List.drop_eq_nil_of_le (by omega)
      rw [hdrop]
      simp
  | succ n ih =>
      rintro s hm hle ⟨id, d, ht⟩
      have hidx : s.currentIndex < s.events.length := by omega
      have hstep : runChain speed (n + 1 + 1) s =
          runChain speed (n + 1) (fireTimer id speed s) := by
        simp only [runChain, ht]
      rw [hstep, fireTimer_step id d speed s ht hidx]
      have hres := ih
        ({ s with
            timers := [(s.nextId, 2000 / speed)]
            refId := some s.nextId
            nextId := s.nextId + 1
            selectedSol := (s.events.get ⟨s.currentIndex, hidx⟩).sol
            solLog := s.solLog ++ [(s.events.get ⟨s.currentIndex, hidx⟩).sol]
            currentIndex := s.currentIndex + 1 })
        (by simp only; omega) (by simp only; omega)
        ⟨s.nextId, 2000 / speed, rfl⟩
      refine ⟨?_, hres.2.1, hres.2.2.1, hres.2.2.2⟩
      rw [hres.1]
      dsimp only
      rw [← List.cons_get_drop_succ (l := s.events) (n := ⟨s.currentIndex, hidx⟩)]
      rw [List.map_cons]
      simp only [List.append_assoc, List.singleton_append, List.cons_append, List.nil_append]

theorem startAutoPlay_eq (filtered : List MissionEvent) (speed : ℚ) (s : APState)
    (hr : s.refId = none) :
    startAutoPlay filtered speed s =
      { s with
        isAutoPlay := true
        events := filtered.filter fun e => decide (0 ≤ e.sol) && decide (e.sol ≤ 1000)
        currentIndex := 0
        selectedSol := 1
        solLog := s.solLog ++ [1]
        timers := s.timers ++ [(s.nextId, 1000 / speed)]
        refId := some s.nextId
        nextId := s.nextId + 1 } := by
  rw [startAutoPlay, if_neg (by rw [hr]; simp)]

theorem APInv_start (filtered : List MissionEvent) (speed : ℚ) (s : APState)
    (hinv : APInv s) : APInv (startAutoPlay filtered speed s) := by
  cases hr : s.refId with
  | some id0 =>
      rw [startAutoPlay, if_pos (by rw [hr]; rfl)]
      exact hinv
  | none =>
      have h0 := timers_nil_of_refId_none s hinv.1 hr
      rw [startAutoPlay_eq filtered speed s hr]
      constructor
      · intro t htl
        rw [show ({ s with
            isAutoPlay := true
            events := filtered.filter fun e => decide (0 ≤ e.sol) && decide (e.sol ≤ 1000)
            currentIndex := 0
            selectedSol := 1
            solLog := s.solLog ++ [1]
            timers := s.timers ++ [(s.nextId, 1000 / speed)]
            refId := some s.nextId
            nextId := s.nextId + 1 } : APState).timers =
          s.timers ++ [(s.nextId, 1000 / speed)] from rfl, h0] at htl
        simp only [List.nil_append, List.mem_singleton] at htl
        rw [htl]
      · show (s.timers ++ [(s.nextId, 1000 / speed)]).length ≤ 1
        rw [h0]
        simp

theorem APInv_fire (id : ℕ) (speed : ℚ) (s : APState) (hinv : APInv s) :
    APInv (fireTimer id speed s) := by
  by_cases hall : s.timers.all (fun t => t.1 != id) = true
  · rw [fireTimer_noop id speed s hall]
    exact hinv
  · have hall2 : s.timers.all (fun t => t.1 != id) = false := by
      rwa [Bool.not_eq_true] at hall
    obtain ⟨d, ht, hfil⟩ := timers_single_of_fired s id hinv hall2
    by_cases hlt : s.currentIndex < s.events.length
    · rw [fireTimer_step id d speed s ht hlt]
      constructor
      · intro t htl
        simp only [List.mem_singleton] at htl
        rw [htl]
      · simp
    · rw [fireTimer_last id d speed s ht hlt]
      constructor
      · intro t htl
        exact absurd htl (List.not_mem_nil t)
      · simp

theorem stopAutoPlay_clears (s : APState) (hinv : APInv s) :
    (stopAutoPlayTr s).1.timers = [] ∧ (stopAutoPlayTr s).1.refId = none := by
  cases hr : s.refId with
  | none =>
      have h0 := timers_nil_of_refId_none s hinv.1 hr
      simp only [stopAutoPlayTr, hr]
      exact ⟨h0, trivial⟩
  | some id0 =>
      have hfil : (s.timers.filter fun t => t.1 != id0) = [] := by
        rw [List.filter_eq_nil]
        intro t htl
        have h2 := hinv.1 t htl
        rw [hr] at h2
        simp [Option.some.inj h2]
      simp only [stopAutoPlayTr, hr]
      exact ⟨hfil, trivial⟩

theorem APInv_stop (s : APState) (hinv : APInv s) : APInv (stopAutoPlayTr s).1 := by
  obtain ⟨h1, _⟩ := stopAutoPlay_clears s hinv
  constructor
  · intro t htl
    rw [h1] at htl
    exact absurd htl (List.not_mem_nil t)
  · rw [h1]
    simp

/-- C5: the auto-play scheduler is a single cooperative timer chain.
`startAutoPlay` while a chain is active schedules nothing new; the
one-pending-timer invariant is preserved by starting, by a timer firing and
by stopping; `stopAutoPlay` (explicit pause) leaves no pending transition;
every transition the chain schedules between event selections has delay
exactly `2000 / speedMultiplier`; and a chain started from an idle state
selects the filtered catalog events' sols sequentially in order (bracketed
by the kickoff selection of sol `1` and the final selection of sol `1000`),
then stops by itself with no pending timer. -/
theorem autoplay_single_chain (s : APState) (filtered : List MissionEvent)
    (speed : ℚ) (id : ℕ) (hinv : APInv s) :
    (s.refId ≠ none → startAutoPlay filtered speed s = s) ∧
    APInv (startAutoPlay filtered speed s) ∧
    APInv (fireTimer id speed s) ∧
    APInv (stopAutoPlayTr s).1 ∧
    (stopAutoPlayTr s).1.timers = [] ∧
    (∀ t ∈ (fireTimer id speed s).timers, t ∈ s.timers ∨ t.2 = 2000 / speed) ∧
    (s.refId = none →
      (runChain speed ((startAutoPlay filtered speed s).events.length + 1)
          (startAutoPlay filtered speed s)).solLog =
        s.solLog ++ 1 ::
          (((filtered.filter fun e => decide (0 ≤ e.sol) && decide (e.sol ≤ 1000)).map
            (fun e => e.sol)) ++ [1000]) ∧
      (runChain speed ((startAutoPlay filtered speed s).events.length + 1)
          (startAutoPlay filtered speed s)).timers = [] ∧
      (runChain speed ((startAutoPlay filtered speed s).events.length + 1)
          (startAutoPlay filtered speed s)).isAutoPlay = false) := by
  refine ⟨?_, APInv_start filtered speed s hinv, APInv_fire id speed s hinv,
    APInv_stop s hinv, (stopAutoPlay_clears s hinv).1, ?_, ?_⟩
  · intro h
    rw [startAutoPlay, if_pos (Option.ne_none_iff_isSome.mp h)]
  · by_cases hall : s.timers.all (fun t => t.1 != id) = true
    · rw [fireTimer_noop id speed s hall]
      exact fun t htl => Or.inl htl
    · have hall2 : s.timers.all (fun t => t.1 != id) = false := by
        rwa [Bool.not_eq_true] at hall
      obtain ⟨d, ht, hfil⟩ := timers_single_of_fired s id hinv hall2
      by_cases hlt : s.currentIndex < s.events.length
      · rw [fireTimer_step id d speed s ht hlt]
        intro t htl
        simp only [List.mem_singleton] at htl
        rw [htl]
        exact Or.inr rfl
      · rw [fireTimer_last id d speed s ht hlt]
        intro t htl
        exact absurd htl (List.not_mem_nil t)
  · intro hr
    have h0 := timers_nil_of_refId_none s hinv.1 hr
    have hres := runChain_completes speed
      ((startAutoPlay filtered speed s).events.length)
      (startAutoPlay filtered speed s)
      (by rw [startAutoPlay_eq filtered speed s hr]; dsimp only; omega)
      (by rw [startAutoPlay_eq filtered speed s hr]; dsimp only; exact Nat.zero_le _)
      ⟨s.nextId, 1000 / speed, by rw [startAutoPlay_eq filtered speed s hr]; dsimp only; rw [h0]; rfl⟩
    refine ⟨?_, hres.2.1, hres.2.2.1⟩
    rw [hres.1, startAutoPlay_eq filtered speed s hr]
    dsimp only
    rw [List.drop_zero]
    simp [List.append_assoc]

/-- An idle timeline state: no pending timer, no active chain. -/
def apIdleState : APState :=
  { timers := []
    nextId := 0
    refId := none
    isAutoPlay := false
    isDragging := false
    events := []
    currentIndex := 0
    selectedSol := 0
    solLog := [] }

/-- Witness for `autoplay_single_chain` from the idle state with the
two-event catalog `[sol 0, sol 60]`, speed `1`, timer id `0`. -/
theorem autoplay_single_chain_witness :
    (apIdleState.refId ≠ none →
      startAutoPlay [(⟨0⟩ : MissionEvent), ⟨60⟩] 1 apIdleState = apIdleState) ∧
    APInv (startAutoPlay [(⟨0⟩ : MissionEvent), ⟨60⟩] 1 apIdleState) ∧
    APInv (fireTimer 0 1 apIdleState) ∧
    APInv (stopAutoPlayTr apIdleState).1 ∧
    (stopAutoPlayTr apIdleState).1.timers = [] ∧
    (∀ t ∈ (fireTimer 0 1 apIdleState).timers,
      t ∈ apIdleState.timers ∨ t.2 = 2000 / 1) ∧
    (apIdleState.refId = none →
      (runChain 1
          ((startAutoPlay [(⟨0⟩ : MissionEvent), ⟨60⟩] 1 apIdleState).events.length + 1)
          (startAutoPlay [(⟨0⟩ : MissionEvent), ⟨60⟩] 1 apIdleState)).solLog =
        apIdleState.solLog ++ 1 ::
          ((([(⟨0⟩ : MissionEvent), ⟨60⟩]).filter fun e =>
              decide (0 ≤ e.sol) && decide (e.sol ≤ 1000)).map (fun e => e.sol) ++
            [1000]) ∧
      (runChain 1
          ((startAutoPlay [(⟨0⟩ : MissionEvent), ⟨60⟩] 1 apIdleState).events.length + 1)
          (startAutoPlay [(⟨0⟩ : MissionEvent), ⟨60⟩] 1 apIdleState)).timers = [] ∧
      (runChain 1
          ((startAutoPlay [(⟨0⟩ : MissionEvent), ⟨60⟩] 1 apIdleState).events.length + 1)
          (startAutoPlay [(⟨0⟩ : MissionEvent), ⟨60⟩] 1 apIdleState)).isAutoPlay =
        false) :=
  autoplay_single_chain apIdleState [⟨0⟩, ⟨60⟩] 1 0
    (by constructor <;> simp [apIdleState])

end MarsRover
